import Mathlib

/-!
# Verification of the `astro` capture tool (`src/astro.go`)

A shallow embedding of the exposure-orchestration core of the `astro`
command-line tool: the camera file manifest and its reconciler (`FindNew`),
the status-line formatter (`Status`), the per-frame exposure cycle
(`CaptureBulb`), the capture loop (`CaptureLoop`), the `main` entry point's
configuration validation, and the interrupt (abort) handler.

External device behaviour (the gphoto2 collaborator) is represented by
oracles: each device command's outcome is an input to the embedded
function, and the commands issued are collected in an explicit trace.
Go `int` is modelled as `Int` (the quantities involved are far from the
64-bit overflow boundary), Go strings as `String`, Go slices as `List`.
-/

namespace Astro

/-- Setting-name constant `EosRemoteRelease = "eosremoterelease"`. -/
def EosRemoteRelease : String := "eosremoterelease"

/-- Setting-name constant `BatteryLevel = "batterylevel"`. -/
def BatteryLevel : String := "batterylevel"

/-- One file entry of the device's storage listing
(`gphoto2.CameraFilePath`): name, containing folder, directory flag.
Only the fields the program reads are modelled. -/
structure CameraFilePath where
  name : String
  folder : String
  dir : Bool
  deriving Repr, DecidableEq

/-- `CameraFiles`: a flat list of files, as produced by `LoadCameraFiles`. -/
abbrev CameraFiles := List CameraFilePath

/-- `Contains` (src/astro.go:45-52): true iff some record of `c` has the
same `Name` as `file`.  Name equality is the sole identity test. -/
def Contains (c : CameraFiles) (file : CameraFilePath) : Bool :=
  c.any (fun f => f.name == file.name)

/-- `FindNew` (src/astro.go:55-66): records of `files` whose name does not
occur in `c`; fast path returns `[]` when the two lengths are equal. -/
def FindNew (c : CameraFiles) (files : CameraFiles) : CameraFiles :=
  if c.length == files.length then []
  else files.filter (fun newFile => !Contains c newFile)

/-- The `Camera` session aggregate (src/astro.go:69-84).  The embedded
`*gphoto2.Camera` handle is external and omitted; `Aperture` is carried as
the string Go's `strconv.FormatFloat(_, 'f', 1, 32)` would produce, since
no claim depends on float formatting. -/
structure Camera where
  Model : String
  Lens : String
  Battery : String
  ISO : Int
  Aperture : String
  Shutter : String
  Duration : Int
  Frames : Int
  Current : Int
  Target : String
  Kind : String
  Keep : Bool
  Files : CameraFiles
  deriving Repr, DecidableEq

/-- Go's `%3d` verb at the values this program prints: decimal rendering
left-padded with spaces to a minimum width of 3. -/
def pad3 (n : Int) : String :=
  let s := toString n
  if s.length < 3 then String.mk (List.replicate (3 - s.length) ' ') ++ s else s

/-- `Status` (src/astro.go:112-130): the single-line capture progress
string, with an unbounded (`Frames == 0`) and a bounded variant. -/
def Camera.Status (c : Camera) (frame : Int) (seconds : Int) : String :=
  if c.Frames == 0 then
    "Capturing " ++ c.Kind ++ " frame " ++ pad3 frame ++ "; " ++
      pad3 seconds ++ " seconds remaining; battery: " ++ c.Battery
  else
    "Capturing " ++ c.Kind ++ " frame " ++ pad3 frame ++ "/" ++
      toString c.Frames ++ "; " ++ pad3 seconds ++
      " seconds remaining; battery: " ++ c.Battery

/-- A command issued to the device collaborator (or, for `createFile`, the
local filesystem) in program order. -/
inductive Cmd where
  | connect (name : String)
  | getSetting (s : String)
  | setConfig (s : String) (value : String)
  | reset
  | listFiles
  | createFile (path : String)
  | download (name : String) (leaveOnCamera : Bool)
  | exitCam
  | freeCam
  deriving Repr, DecidableEq

/-- Outcomes the device supplies to one `CaptureBulb` cycle; each field is
the result of the corresponding device call the cycle makes. -/
structure DeviceOracle where
  batteryRes : Except String String
  armRes : Except String Unit
  releaseRes : Except String Unit
  resetRes : Except String Unit
  listRes : Except String CameraFiles
  createRes : String → Except String Unit
  downloadRes : CameraFilePath → Except String Unit

/-- Device-side effect of `DownloadImage(fh, leave)` on the camera's file
store: the gphoto2 collaborator deletes the downloaded file from the
camera when `leave` is `false`.  This is the semantics the repository
itself documents for its `-keep` flag ("Keep files on the camera after
download (default: remove files)", src/astro.go:294). -/
def removeFromDevice (dev : CameraFiles) (f : CameraFilePath) (leave : Bool) : CameraFiles :=
  if leave then dev else dev.filter (fun g => g.name != f.name)

/-- The download loop of `CaptureBulb` (src/astro.go:171-182): for each new
file, create `<Target>/<Kind>/<Name>` and download with `leave = false`
(the literal `false` of src/astro.go:179).  Returns the effect trace and,
on success, the files downloaded in order. -/
def downloadAll (target kind : String) (o : DeviceOracle) :
    CameraFiles → List Cmd × Except String CameraFiles
  | [] => ([], .ok [])
  | file :: rest =>
    let path := target ++ "/" ++ kind ++ "/" ++ file.name
    match o.createRes path with
    | .error e => ([Cmd.createFile path], .error e)
    | .ok _ =>
      match o.downloadRes file with
      | .error e => ([Cmd.createFile path, Cmd.download file.name false], .error e)
      | .ok _ =>
        let (tr, r) := downloadAll target kind o rest
        (Cmd.createFile path :: Cmd.download file.name false :: tr,
         r.map (file :: ·))

/-- Data produced by a successful exposure cycle: the fresh listing, the
files downloaded, and the device's file store after the downloads
(per `removeFromDevice`). -/
structure CycleData where
  listing : CameraFiles
  downloads : CameraFiles
  deviceFiles : CameraFiles
  deriving Repr, DecidableEq

/-- `CaptureBulb` (src/astro.go:133-185): refresh battery, arm the shutter,
(concurrent status print loop and the timed waits are real-time UI, not
modelled), release the shutter, reset the connection, list files, download
the files `FindNew` reports against the session baseline `c.Files`.
Returns the command trace, the session state at return (the Go receiver is
a pointer, so the battery update survives even an error return), and the
outcome.  The `frame` argument is only fed to the UI print loop. -/
def Camera.CaptureBulb (c : Camera) (frame : Int) (o : DeviceOracle) :
    List Cmd × Camera × Except String CycleData :=
  match o.batteryRes with
  | .error e => ([Cmd.getSetting BatteryLevel], c, .error e)
  | .ok battery =>
    let c := { c with Battery := battery }
    let tr0 := [Cmd.getSetting BatteryLevel, Cmd.setConfig EosRemoteRelease "Immediate"]
    match o.armRes with
    | .error e => (tr0, c, .error e)
    | .ok _ =>
      let tr1 := tr0 ++ [Cmd.setConfig EosRemoteRelease "Release Full"]
      match o.releaseRes with
      | .error e => (tr1, c, .error e)
      | .ok _ =>
        let tr2 := tr1 ++ [Cmd.reset]
        match o.resetRes with
        | .error e => (tr2, c, .error e)
        | .ok _ =>
          let tr3 := tr2 ++ [Cmd.listFiles]
          match o.listRes with
          | .error e => (tr3, c, .error e)
          | .ok files =>
            let newFiles := FindNew c.Files files
            let (trD, rD) := downloadAll c.Target c.Kind o newFiles
            match rD with
            | .error e => (tr3 ++ trD, c, .error e)
            | .ok downloaded =>
              (tr3 ++ trD, c,
               .ok { listing := files, downloads := downloaded,
                     deviceFiles :=
                       downloaded.foldl (fun d f => removeFromDevice d f false) files })

/-- The loop of `CaptureLoop` (src/astro.go:274-279), with `os` giving the
device's responses for each frame index and `fuel` bounding how many
iterations the model unfolds (the Go loop is unbounded when `Frames = 0`).
Returns the frame indices passed to `CaptureBulb`, the accumulated command
trace, the session state, and `none` when fuel ran out with the loop still
running, `some` of the loop's result otherwise. -/
def CaptureLoopAux (os : Int → DeviceOracle) (frames : Int) (fuel : Nat) (frame : Int)
    (c : Camera) : List Int × List Cmd × Camera × Option (Except String Unit) :=
  if frames = 0 ∨ frame < frames then
    match fuel with
    | 0 => ([], [], c, none)
    | fuel' + 1 =>
      match c.CaptureBulb (frame + 1) (os (frame + 1)) with
      | (tr, c', .error e) => ([frame + 1], tr, c', some (.error e))
      | (tr, c', .ok _) =>
        match CaptureLoopAux os frames fuel' (frame + 1) c' with
        | (calls, trs, c'', r) => ((frame + 1) :: calls, tr ++ trs, c'', r)
  else ([], [], c, some (.ok ()))

/-- `CaptureLoop` (src/astro.go:272-282): run the loop from `frame = 0`
with the session's `Frames` as bound. -/
def Camera.CaptureLoop (c : Camera) (os : Int → DeviceOracle) (fuel : Nat) :
    List Int × List Cmd × Camera × Option (Except String Unit) :=
  CaptureLoopAux os c.Frames fuel 0 c

/-- The configuration surface bound by `main`'s flags
(src/astro.go:287-295).  `Aperture` carries the formatted string (see
`Camera`). -/
structure Config where
  Frames : Int
  Target : String
  Duration : Int
  Shutter : String
  Aperture : String
  ISO : Int
  Kind : String
  Keep : Bool
  Name : String
  deriving Repr, DecidableEq

/-- The session state right after flag binding, before `Init` runs. -/
def Camera.fromConfig (cfg : Config) : Camera :=
  { Model := "", Lens := "", Battery := "", ISO := cfg.ISO,
    Aperture := cfg.Aperture, Shutter := cfg.Shutter, Duration := cfg.Duration,
    Frames := cfg.Frames, Current := 0, Target := cfg.Target, Kind := cfg.Kind,
    Keep := cfg.Keep, Files := [] }

/-- Outcomes the device supplies to `Init`, one per device call it makes
(a `GetSetting`/`Get` pair is collapsed into one outcome). -/
structure InitOracle where
  connectRes : Except String Unit
  modelRes : Except String String
  lensRes : Except String String
  listRes : Except String CameraFiles
  focusRes : Except String Unit
  shutterRes : Except String Unit
  isoRes : Except String Unit
  wbRes : Except String Unit
  fmtRes : Except String Unit
  apertureRes : Except String Unit
  captureTargetRes : Except String Unit
  batteryRes : Except String String

/-- `Init` (src/astro.go:200-269): connect, read model and lens names,
load the initial file manifest into `Files`, apply the fixed one-time
settings in source order, and read the battery level. -/
def InitCam (cfg : Config) (o : InitOracle) : List Cmd × Except String Camera :=
  let c := Camera.fromConfig cfg
  match o.connectRes with
  | .error e => ([Cmd.connect cfg.Name], .error e)
  | .ok _ =>
  let tr := [Cmd.connect cfg.Name, Cmd.getSetting "cameramodel"]
  match o.modelRes with
  | .error e => (tr, .error ("Init(cameramodel): " ++ e ++ "\n"))
  | .ok model =>
  let c := { c with Model := model }
  let tr := tr ++ [Cmd.getSetting "lensname"]
  match o.lensRes with
  | .error e => (tr, .error ("Init(lensname): " ++ e ++ "\n"))
  | .ok lens =>
  let c := { c with Lens := lens }
  let tr := tr ++ [Cmd.listFiles]
  match o.listRes with
  | .error e => (tr, .error e)
  | .ok files =>
  let c := { c with Files := c.Files ++ files }
  let tr := tr ++ [Cmd.setConfig "focusmode" "Manual"]
  match o.focusRes with
  | .error e => (tr, .error ("Init(focusmode): " ++ e))
  | .ok _ =>
  let tr := tr ++ [Cmd.setConfig "shutterspeed" cfg.Shutter]
  match o.shutterRes with
  | .error e => (tr, .error ("Init(shutterspeed): " ++ e))
  | .ok _ =>
  let tr := tr ++ [Cmd.setConfig "iso" (toString cfg.ISO)]
  match o.isoRes with
  | .error e => (tr, .error ("Init(iso): " ++ e))
  | .ok _ =>
  let tr := tr ++ [Cmd.setConfig "whitebalance" "Daylight"]
  match o.wbRes with
  | .error e => (tr, .error ("Init(whitebalance): " ++ e))
  | .ok _ =>
  let tr := tr ++ [Cmd.setConfig "imageformat" "RAW"]
  match o.fmtRes with
  | .error e => (tr, .error ("Init(imageformat): " ++ e))
  | .ok _ =>
  let tr := tr ++ [Cmd.setConfig "aperture" cfg.Aperture]
  match o.apertureRes with
  | .error e => (tr, .error ("Init(aperture): " ++ e))
  | .ok _ =>
  let tr := tr ++ [Cmd.setConfig "capturetarget" "Memory card"]
  match o.captureTargetRes with
  | .error e => (tr, .error ("Init(capturetarget): " ++ e ++ "\n"))
  | .ok _ =>
  let tr := tr ++ [Cmd.getSetting BatteryLevel]
  match o.batteryRes with
  | .error e => (tr, .error ("Init(batterylevel): " ++ e ++ "\n"))
  | .ok battery => (tr, .ok { c with Battery := battery })

/-- Outcomes for `Close` (src/astro.go:188-196). -/
structure CloseOracle where
  exitRes : Except String Unit
  freeRes : Except String Unit

/-- `Close` (src/astro.go:188-196): `Exit` then `Free`, each fatal on
error. -/
def CloseCamera (o : CloseOracle) : List Cmd × Except String Unit :=
  match o.exitRes with
  | .error e => ([Cmd.exitCam], .error e)
  | .ok _ =>
    match o.freeRes with
    | .error e => ([Cmd.exitCam, Cmd.freeCam], .error e)
    | .ok _ => ([Cmd.exitCam, Cmd.freeCam], .ok ())

/-- Observable outcome of one run of `main`: the sanity-check messages
printed (progress/info prints are UI and not collected), the device-command
trace, the frame indices handed to `CaptureBulb`, and the process exit
status (`none` when the model's loop fuel ran out with the process still
running). -/
structure MainOut where
  printed : List String
  trace : List Cmd
  calls : List Int
  exit : Option Int
  deriving Repr, DecidableEq

/-- Go's 64-bit `int` multiplication: the mathematical product wrapped
into `[-2^63, 2^63)`, as `camera.Frames*camera.Duration` computes it on a
64-bit platform.  `Int.bmod x (2^64)` is exactly this two's-complement
reduction. -/
def goIntMul (a b : Int) : Int := Int.bmod (a * b) (2 ^ 64)

/-- `main` (src/astro.go:285-337) after flag binding: the two sanity
checks (src/astro.go:297-305, each a `fmt.Printf` followed by `return`,
which ends `main` with process exit status 0; the time check multiplies
with Go's wrapping `int` arithmetic), then `Init`
(`log.Fatal` on error: exit status 1), the capture loop (fatal errors
exit 1), and `Close` (fatal errors exit 1); falling off the end of `main`
exits 0.  The interrupt-handler goroutine is modelled separately by
`abortHandler`. -/
def mainRun (cfg : Config) (io : InitOracle) (os : Int → DeviceOracle)
    (co : CloseOracle) (fuel : Nat) : MainOut :=
  if cfg.Kind ≠ "lights" ∧ cfg.Kind ≠ "darks" then
    { printed := ["Bad 'kind' option: " ++ cfg.Kind ++ " (must be either 'lights' or 'darks'"],
      trace := [], calls := [], exit := some 0 }
  else if goIntMul cfg.Frames cfg.Duration > 28800 then
    { printed := ["Specified shooting time is longer than 8 hours, aborting.\n"],
      trace := [], calls := [], exit := some 0 }
  else
    match InitCam cfg io with
    | (tr, .error _) => { printed := [], trace := tr, calls := [], exit := some 1 }
    | (tr, .ok cam) =>
      match cam.CaptureLoop os fuel with
      | (calls, trL, _, none) =>
        { printed := [], trace := tr ++ trL, calls := calls, exit := none }
      | (calls, trL, _, some (.error _)) =>
        { printed := [], trace := tr ++ trL, calls := calls, exit := some 1 }
      | (calls, trL, _, some (.ok _)) =>
        match CloseCamera co with
        | (trC, .error _) =>
          { printed := [], trace := tr ++ trL ++ trC, calls := calls, exit := some 1 }
        | (trC, .ok _) =>
          { printed := [], trace := tr ++ trL ++ trC, calls := calls, exit := some 0 }

/-- The interrupt-handler goroutine body (src/astro.go:320-326): on a
signal it issues `SetConfig(EosRemoteRelease, "Release Full")` with the
returned error discarded, then calls `os.Exit(1)`.  `releaseRes` is the
outcome of that release command, which the handler never inspects; the
result is the command trace and the process exit status. -/
def abortHandler (releaseRes : Except String Unit) : List Cmd × Int :=
  match releaseRes with
  | .ok _ => ([Cmd.setConfig EosRemoteRelease "Release Full"], 1)
  | .error _ => ([Cmd.setConfig EosRemoteRelease "Release Full"], 1)

/-- All of a cycle's device calls succeed: the assumption "all device
calls succeed" of the spec's capture-loop property. -/
def OracleOK (o : DeviceOracle) : Prop :=
  (∃ b, o.batteryRes = .ok b) ∧ o.armRes = .ok () ∧ o.releaseRes = .ok () ∧
    o.resetRes = .ok () ∧ (∃ l, o.listRes = .ok l) ∧
    (∀ p, o.createRes p = .ok ()) ∧ (∀ f, o.downloadRes f = .ok ())

/-! ## Concrete fixtures used by witnesses and counterexamples -/

/-- A file already on the camera at session start. -/
def fA : CameraFilePath := ⟨"IMG_0001.CR2", "/store_00010001/DCIM/100CANON", false⟩

/-- A file produced by an exposure. -/
def fB : CameraFilePath := ⟨"IMG_0002.CR2", "/store_00010001/DCIM/100CANON", false⟩

/-- A second file produced by an exposure. -/
def fC : CameraFilePath := ⟨"IMG_0003.CR2", "/store_00010001/DCIM/100CANON", false⟩

/-- A session whose baseline manifest is `[fA]`, with unbounded frames. -/
def c0 : Camera :=
  { Model := "Canon EOS R", Lens := "RF35mm", Battery := "75%", ISO := 800,
    Aperture := "2.8", Shutter := "bulb", Duration := 60, Frames := 0, Current := 0,
    Target := "/tmp/target", Kind := "lights", Keep := false, Files := [fA] }

/-- A device for which every command succeeds and whose post-exposure
listing is `[fA, fB]`. -/
def okOracle : DeviceOracle :=
  { batteryRes := .ok "75%", armRes := .ok (), releaseRes := .ok (),
    resetRes := .ok (), listRes := .ok [fA, fB],
    createRes := fun _ => .ok (), downloadRes := fun _ => .ok () }

/-- The same successful device for every frame of a run. -/
def os0 : Int → DeviceOracle := fun _ => okOracle

/-- An init oracle for which every command succeeds; the initial listing
is `[fA]`. -/
def okInit : InitOracle :=
  { connectRes := .ok (), modelRes := .ok "Canon EOS R", lensRes := .ok "RF35mm",
    listRes := .ok [fA], focusRes := .ok (), shutterRes := .ok (),
    isoRes := .ok (), wbRes := .ok (), fmtRes := .ok (),
    apertureRes := .ok (), captureTargetRes := .ok (), batteryRes := .ok "75%" }

/-- A close oracle for which `Exit` and `Free` succeed. -/
def okClose : CloseOracle := ⟨.ok (), .ok ()⟩

/-- A configuration with an invalid frame kind. -/
def cfgFlats : Config :=
  { Frames := 10, Target := "/home/user/DSO", Duration := 60, Shutter := "bulb",
    Aperture := "2.8", ISO := 800, Kind := "flats", Keep := false, Name := "" }

/-- The boundary configuration of the spec: 8 frames of 3600 seconds,
exactly 8 hours. -/
def cfg8h : Config :=
  { Frames := 8, Target := "/home/user/DSO", Duration := 3600, Shutter := "bulb",
    Aperture := "2.8", ISO := 800, Kind := "lights", Keep := false, Name := "" }

/-- A configuration whose mathematical session time (2^32 frames of 2^32
seconds, product 2^64) overflows Go's 64-bit `int` product to 0, so the
8-hour check passes. -/
def cfgWrap : Config :=
  { Frames := 4294967296, Target := "/home/user/DSO", Duration := 4294967296,
    Shutter := "bulb", Aperture := "2.8", ISO := 800, Kind := "lights",
    Keep := false, Name := "" }

/-- A valid 2-frame configuration for the capture-loop witness. -/
def cfg2 : Config :=
  { Frames := 2, Target := "/tmp/target", Duration := 60, Shutter := "bulb",
    Aperture := "2.8", ISO := 800, Kind := "lights", Keep := false, Name := "" }

/-! ## Theorems about the manifest reconciler -/

/-- C9: For every manifest `M`, `FindNew M M` returns the empty
manifest (the equal-length fast path fires). -/
theorem C9_findNew_self_empty (M : CameraFiles) : FindNew M M = [] := by
  simp [FindNew]

/-- C4: For every two manifests of equal length, `FindNew` returns the
empty manifest regardless of the names, by the fast path. -/
theorem C4_findNew_equal_length_empty (A B : CameraFiles)
    (h : A.length = B.length) : FindNew A B = [] := by
  simp [FindNew, h]

/-- Witness for C4 at the concrete manifests `[fA]`, `[fB]`. -/
theorem C4_findNew_equal_length_empty_witness :
    ([fA] : CameraFiles).length = ([fB] : CameraFiles).length ∧
      FindNew [fA] [fB] = [] :=
  ⟨rfl, C4_findNew_equal_length_empty [fA] [fB] rfl⟩

/-- C2 fails as stated: `[fA]` and `[fB]` have disjoint name sets, yet
`FindNew [fA] [fB]` is `[]` rather than `[fB]`, because the equal-length
fast path fires. -/
theorem C2_counterexample :
    (∀ a ∈ ([fA] : CameraFiles), ∀ b ∈ ([fB] : CameraFiles), a.name ≠ b.name) ∧
      FindNew [fA] [fB] ≠ [fB] := by
  exact ⟨by decide, by decide⟩

/-- C2 amended: for manifests with disjoint name sets *and different
lengths*, `FindNew A B` returns exactly `B`, in order. -/
theorem C2_findNew_disjoint_eq (A B : CameraFiles)
    (hlen : A.length ≠ B.length)
    (hdisj : ∀ a ∈ A, ∀ b ∈ B, a.name ≠ b.name) :
    FindNew A B = B := by
  unfold FindNew
  rw [if_neg (by simpa using hlen)]
  refine List.filter_eq_self.mpr ?_
  intro b hb
  simp only [Bool.not_eq_true']
  rw [Contains]
  simp only [List.any_eq_false, beq_iff_eq]
  intro a ha
  exact hdisj a ha b hb

/-- Witness for the amended C2 at `[fA]` versus `[fB, fC]`. -/
theorem C2_findNew_disjoint_eq_witness :
    (([fA] : CameraFiles).length ≠ ([fB, fC] : CameraFiles).length) ∧
      FindNew [fA] [fB, fC] = [fB, fC] :=
  ⟨by decide, C2_findNew_disjoint_eq [fA] [fB, fC] (by decide) (by decide)⟩

/-! ## Theorems about the status line -/

/-- C5 fails as stated: the `%3d` verb pads 45 to width 3, so the line
has two spaces between `;` and `45`, not one. -/
theorem C5_counterexample :
    c0.Frames = 0 ∧ c0.Kind = "lights" ∧ c0.Battery = "75%" ∧
      c0.Status 3 45 ≠
        "Capturing lights frame   3; 45 seconds remaining; battery: 75%" := by
  exact ⟨rfl, rfl, rfl, by decide⟩

/-- C5 amended: for a session with unbounded target (`Frames = 0`), kind
`"lights"` and battery `"75%"`, the status line for frame 3 with 45
seconds remaining is exactly
`"Capturing lights frame   3;  45 seconds remaining; battery: 75%"`
(two spaces before `45`, from the `%3d` field width). -/
theorem C5_status_line (c : Camera) (h0 : c.Frames = 0) (hk : c.Kind = "lights")
    (hb : c.Battery = "75%") :
    c.Status 3 45 =
      "Capturing lights frame   3;  45 seconds remaining; battery: 75%" := by
  unfold Camera.Status
  rw [h0, hk, hb]
  rfl

/-- Witness for the amended C5 at the concrete session `c0`. -/
theorem C5_status_line_witness :
    c0.Frames = 0 ∧ c0.Kind = "lights" ∧ c0.Battery = "75%" ∧
      c0.Status 3 45 =
        "Capturing lights frame   3;  45 seconds remaining; battery: 75%" :=
  ⟨rfl, rfl, rfl, C5_status_line c0 rfl rfl rfl⟩

/-! ## Theorems about the exposure cycle -/

/-- A successful download loop downloads exactly the files it was given,
in order. -/
lemma downloadAll_ok_eq (target kind : String) (o : DeviceOracle) :
    ∀ (l : CameraFiles) (tr : List Cmd) (r : CameraFiles),
      downloadAll target kind o l = (tr, Except.ok r) → r = l := by
  intro l
  induction l with
  | nil =>
    intro tr r h
    simp only [downloadAll, Prod.mk.injEq] at h
    exact (Except.ok.injEq _ _ ▸ h.2).symm
  | cons f rest ih =>
    intro tr r h
    unfold downloadAll at h
    simp only [] at h
    cases hc : o.createRes (target ++ "/" ++ kind ++ "/" ++ f.name) with
    | error e => rw [hc] at h; simp at h
    | ok u =>
      rw [hc] at h
      cases hd : o.downloadRes f with
      | error e => rw [hd] at h; simp at h
      | ok u' =>
        rw [hd] at h
        rcases hrec : downloadAll target kind o rest with ⟨tr', r'⟩
        rw [hrec] at h
        cases r' with
        | error e => simp [Except.map] at h
        | ok rr =>
          simp only [Except.map, Prod.mk.injEq, Except.ok.injEq] at h
          rw [← h.2, ih tr' rr hrec]

/-- Folding `removeFromDevice` only removes names, never adds them. -/
lemma names_foldl_remove_subset (l : CameraFiles) :
    ∀ (dev : CameraFiles) (x : String),
      x ∈ (l.foldl (fun d g => removeFromDevice d g false) dev).map CameraFilePath.name →
      x ∈ dev.map CameraFilePath.name := by
  induction l with
  | nil => intro dev x h; simpa using h
  | cons f rest ih =>
    intro dev x h
    simp only [List.foldl_cons] at h
    have h2 := ih (removeFromDevice dev f false) x h
    simp only [removeFromDevice, if_neg, Bool.false_eq_true, ite_false,
      List.mem_map, List.mem_filter] at h2
    rcases h2 with ⟨g, ⟨hg, _⟩, hx⟩
    exact List.mem_map.mpr ⟨g, hg, hx⟩

/-- Every file in the downloaded list is absent from the device's file
store after the downloads (download with `leave = false` deletes). -/
lemma downloads_removed (l : CameraFiles) :
    ∀ (dev : CameraFiles), ∀ f ∈ l,
      f.name ∉ (l.foldl (fun d g => removeFromDevice d g false) dev).map
        CameraFilePath.name := by
  induction l with
  | nil => intro dev f hf; simp at hf
  | cons g rest ih =>
    intro dev f hf
    simp only [List.foldl_cons]
    rcases List.mem_cons.mp hf with hfg | hfr
    · subst hfg
      intro hmem
      have h2 := names_foldl_remove_subset rest (removeFromDevice dev f false) f.name hmem
      simp only [removeFromDevice, Bool.false_eq_true, ite_false, List.mem_map,
        List.mem_filter, bne_iff_ne] at h2
      rcases h2 with ⟨g', ⟨_, hne⟩, hx⟩
      exact hne hx
    · exact ih (removeFromDevice dev g false) f hfr

/-- C1 fails as stated: a successful `CaptureBulb` whose fresh listing is
`[fA, fB]` leaves the session's `Files` field at its old value `[fA]`;
the baseline manifest is never assigned the fresh listing. -/
theorem C1_counterexample :
    (c0.CaptureBulb 1 okOracle).2.2 =
      Except.ok ({ listing := [fA, fB], downloads := [fB], deviceFiles := [fA] } : CycleData) ∧
    (c0.CaptureBulb 1 okOracle).2.1.Files = [fA] ∧
    ([fA] : CameraFiles) ≠ [fA, fB] :=
  ⟨rfl, rfl, by decide⟩

/-- C1 amended: a successful `CaptureBulb` leaves the baseline `Files`
unchanged (it is never advanced); the cycle downloads exactly
`FindNew Files listing`; and each downloaded file is removed from the
device's store by the `leave = false` download, so it is absent from
later listings (this, not an advanced baseline, is what prevents a file
from being downloaded twice across cycles). -/
theorem C1_capture_keeps_baseline (c : Camera) (frame : Int) (o : DeviceOracle)
    (tr : List Cmd) (c' : Camera) (d : CycleData)
    (h : c.CaptureBulb frame o = (tr, c', Except.ok d)) :
    c'.Files = c.Files ∧
    d.downloads = FindNew c.Files d.listing ∧
    ∀ f ∈ d.downloads, f.name ∉ d.deviceFiles.map CameraFilePath.name := by
  unfold Camera.CaptureBulb at h
  cases hb : o.batteryRes with
  | error e => rw [hb] at h; simp at h
  | ok battery =>
    rw [hb] at h
    cases ha : o.armRes with
    | error e => rw [ha] at h; simp at h
    | ok _ =>
      rw [ha] at h
      cases hr : o.releaseRes with
      | error e => rw [hr] at h; simp at h
      | ok _ =>
        rw [hr] at h
        cases hres : o.resetRes with
        | error e => rw [hres] at h; simp at h
        | ok _ =>
          rw [hres] at h
          cases hl : o.listRes with
          | error e => rw [hl] at h; simp at h
          | ok files =>
            rw [hl] at h
            simp only at h
            rcases hdl : downloadAll c.Target c.Kind o (FindNew c.Files files)
              with ⟨trD, rD⟩
            rw [hdl] at h
            cases rD with
            | error e => simp at h
            | ok downloaded =>
              simp only [Prod.mk.injEq, Except.ok.injEq] at h
              rcases h with ⟨htr, hc', hd⟩
              subst hc'
              subst hd
              refine ⟨rfl, ?_, ?_⟩
              · exact congrArg CycleData.downloads rfl |>.trans
                  (by simpa using (downloadAll_ok_eq c.Target c.Kind o _ trD downloaded hdl))
              · intro f hf
                exact downloads_removed downloaded files f hf

/-- Witness for the amended C1 at the concrete session `c0` and the
all-succeeding device `okOracle`. -/
theorem C1_capture_keeps_baseline_witness :
    c0.Files = c0.Files ∧
    ([fB] : CameraFiles) = FindNew c0.Files [fA, fB] ∧
    ∀ f ∈ ([fB] : CameraFiles), f.name ∉ ([fA] : CameraFiles).map CameraFilePath.name :=
  C1_capture_keeps_baseline c0 1 okOracle
    [Cmd.getSetting BatteryLevel, Cmd.setConfig EosRemoteRelease "Immediate",
     Cmd.setConfig EosRemoteRelease "Release Full", Cmd.reset, Cmd.listFiles,
     Cmd.createFile "/tmp/target/lights/IMG_0002.CR2",
     Cmd.download "IMG_0002.CR2" false]
    c0 ⟨[fA, fB], [fB], [fA]⟩ rfl

/-! ## Theorems about the retain-on-device flag -/

/-- `CaptureBulb` never consults `Keep`: flipping it changes only the
`Keep` field of the returned session. -/
lemma captureBulb_keep_update (c : Camera) (frame : Int) (o : DeviceOracle) (k : Bool) :
    ({ c with Keep := k } : Camera).CaptureBulb frame o =
      ((c.CaptureBulb frame o).1,
       { (c.CaptureBulb frame o).2.1 with Keep := k },
       (c.CaptureBulb frame o).2.2) := by
  unfold Camera.CaptureBulb
  cases o.batteryRes with
  | error e => rfl
  | ok battery =>
    cases o.armRes with
    | error e => rfl
    | ok u =>
      cases o.releaseRes with
      | error e => rfl
      | ok u' =>
        cases o.resetRes with
        | error e => rfl
        | ok u'' =>
          cases o.listRes with
          | error e => rfl
          | ok files =>
            simp only []
            rcases downloadAll c.Target c.Kind o (FindNew c.Files files) with ⟨trD, rD⟩
            cases rD with
            | error e => rfl
            | ok downloaded => rfl

/-- The capture loop never consults `Keep`. -/
lemma captureLoopAux_keep (os : Int → DeviceOracle) (frames : Int) :
    ∀ (fuel : Nat) (frame : Int) (c : Camera) (k : Bool),
      CaptureLoopAux os frames fuel frame { c with Keep := k } =
        ((CaptureLoopAux os frames fuel frame c).1,
         (CaptureLoopAux os frames fuel frame c).2.1,
         { (CaptureLoopAux os frames fuel frame c).2.2.1 with Keep := k },
         (CaptureLoopAux os frames fuel frame c).2.2.2) := by
  intro fuel
  induction fuel with
  | zero =>
    intro frame c k
    by_cases hcond : frames = 0 ∨ frame < frames
    · simp only [CaptureLoopAux, if_pos hcond]
    · simp only [CaptureLoopAux, if_neg hcond]
  | succ fuel ih =>
    intro frame c k
    by_cases hcond : frames = 0 ∨ frame < frames
    · simp only [CaptureLoopAux, if_pos hcond]
      rw [captureBulb_keep_update]
      rcases c.CaptureBulb (frame + 1) (os (frame + 1)) with ⟨tr, c', r⟩
      cases r with
      | error e => rfl
      | ok d =>
        simp only []
        rw [ih]
    · simp only [CaptureLoopAux, if_neg hcond]

/-- `Init` never consults `Keep`: it only copies it into the session. -/
lemma initCam_keep_update (cfg : Config) (o : InitOracle) (k : Bool) :
    InitCam { cfg with Keep := k } o =
      ((InitCam cfg o).1, (InitCam cfg o).2.map (fun cam => { cam with Keep := k })) := by
  unfold InitCam
  repeat' (first | rfl | split)

/-- The whole program's observable behaviour is independent of the `-keep`
flag: `MainOut` carries no session state, so the two runs coincide. -/
lemma mainRun_keep_update (cfg : Config) (io : InitOracle) (os : Int → DeviceOracle)
    (co : CloseOracle) (fuel : Nat) (k : Bool) :
    mainRun { cfg with Keep := k } io os co fuel = mainRun cfg io os co fuel := by
  unfold mainRun
  simp only []
  by_cases h1 : cfg.Kind ≠ "lights" ∧ cfg.Kind ≠ "darks"
  · rw [if_pos h1, if_pos h1]
  · rw [if_neg h1, if_neg h1]
    by_cases h2 : goIntMul cfg.Frames cfg.Duration > 28800
    · rw [if_pos h2, if_pos h2]
    · rw [if_neg h2, if_neg h2]
      rw [initCam_keep_update]
      rcases InitCam cfg io with ⟨trI, rI⟩
      cases rI with
      | error e => rfl
      | ok cam =>
        simp only [Except.map]
        unfold Camera.CaptureLoop
        simp only []
        rw [captureLoopAux_keep]
        rcases CaptureLoopAux os cam.Frames fuel 0 cam with ⟨calls, trL, c'', r⟩
        cases r with
        | none => rfl
        | some r' =>
          cases r' with
          | error e => rfl
          | ok u => rfl

/-- Every download command the download loop issues carries
`leaveOnCamera = false`. -/
lemma downloadAll_leave_false (target kind : String) (o : DeviceOracle) :
    ∀ (l : CameraFiles) (n : String) (b : Bool),
      Cmd.download n b ∈ (downloadAll target kind o l).1 → b = false := by
  intro l
  induction l with
  | nil => intro n b h; simp [downloadAll] at h
  | cons f rest ih =>
    intro n b h
    unfold downloadAll at h
    simp only [] at h
    cases hc : o.createRes (target ++ "/" ++ kind ++ "/" ++ f.name) with
    | error e => rw [hc] at h; simp at h
    | ok u =>
      rw [hc] at h
      cases hd : o.downloadRes f with
      | error e =>
        rw [hd] at h
        simp only [List.mem_cons, List.not_mem_nil, or_false] at h
        rcases h with h | h
        · exact absurd h (by simp)
        · exact ((Cmd.download.injEq n b f.name false).mp h).2
      | ok u2 =>
        rw [hd] at h
        rcases hrec : downloadAll target kind o rest with ⟨tr2, r2⟩
        rw [hrec] at h
        simp only [List.mem_cons] at h
        rcases h with h | h | h
        · exact absurd h (by simp)
        · exact ((Cmd.download.injEq n b f.name false).mp h).2
        · exact ih n b (by rw [hrec]; exact h)

/-- Every download command a capture cycle issues carries
`leaveOnCamera = false`. -/
lemma captureBulb_leave_false (c : Camera) (frame : Int) (o : DeviceOracle) :
    ∀ (n : String) (b : Bool),
      Cmd.download n b ∈ (c.CaptureBulb frame o).1 → b = false := by
  intro n b h
  unfold Camera.CaptureBulb at h
  cases hb : o.batteryRes with
  | error e => rw [hb] at h; simp at h
  | ok battery =>
    rw [hb] at h
    cases ha : o.armRes with
    | error e => rw [ha] at h; simp at h
    | ok u =>
      rw [ha] at h
      cases hr : o.releaseRes with
      | error e => rw [hr] at h; simp at h
      | ok u2 =>
        rw [hr] at h
        cases hres : o.resetRes with
        | error e => rw [hres] at h; simp at h
        | ok u3 =>
          rw [hres] at h
          cases hl : o.listRes with
          | error e => rw [hl] at h; simp at h
          | ok files =>
            rw [hl] at h
            simp only [] at h
            rcases hdl : downloadAll c.Target c.Kind o (FindNew c.Files files)
              with ⟨trD, rD⟩
            rw [hdl] at h
            have hmem : Cmd.download n b ∈ trD → b = false := fun hm =>
              downloadAll_leave_false c.Target c.Kind o _ n b (by rw [hdl]; exact hm)
            cases rD with
            | error e =>
              simp only [List.mem_append, List.mem_cons, List.not_mem_nil, or_false] at h
              rcases h with (h | h | h | h | h) | h
              all_goals first
                | exact absurd h (by simp)
                | exact hmem h
            | ok downloaded =>
              simp only [List.mem_append, List.mem_cons, List.not_mem_nil, or_false] at h
              rcases h with (h | h | h | h | h) | h
              all_goals first
                | exact absurd h (by simp)
                | exact hmem h

/-- Every download command the capture loop issues carries
`leaveOnCamera = false`. -/
lemma captureLoopAux_leave_false (os : Int → DeviceOracle) (frames : Int) :
    ∀ (fuel : Nat) (frame : Int) (c : Camera) (n : String) (b : Bool),
      Cmd.download n b ∈ (CaptureLoopAux os frames fuel frame c).2.1 → b = false := by
  intro fuel
  induction fuel with
  | zero =>
    intro frame c n b h
    unfold CaptureLoopAux at h
    by_cases hcond : frames = 0 ∨ frame < frames
    · rw [if_pos hcond] at h; simp at h
    · rw [if_neg hcond] at h; simp at h
  | succ fuel ih =>
    intro frame c n b h
    unfold CaptureLoopAux at h
    by_cases hcond : frames = 0 ∨ frame < frames
    · rw [if_pos hcond] at h
      simp only [] at h
      rcases hcb : c.CaptureBulb (frame + 1) (os (frame + 1)) with ⟨tr, c', r⟩
      rw [hcb] at h
      have htr : Cmd.download n b ∈ tr → b = false := fun hm =>
        captureBulb_leave_false c (frame + 1) (os (frame + 1)) n b (by rw [hcb]; exact hm)
      cases r with
      | error e => exact htr (by simpa using h)
      | ok d =>
        simp only [] at h
        rcases hrec : CaptureLoopAux os frames fuel (frame + 1) c' with ⟨calls, trs, c'', rr⟩
        rw [hrec] at h
        simp only [List.mem_append] at h
        rcases h with h | h
        · exact htr h
        · exact ih (frame + 1) c' n b (by rw [hrec]; exact h)
    · rw [if_neg hcond] at h; simp at h

/-- `Init` issues no download command. -/
lemma initCam_no_download (cfg : Config) (io : InitOracle) (n : String) (b : Bool) :
    Cmd.download n b ∉ (InitCam cfg io).1 := by
  intro h
  unfold InitCam at h
  repeat' split at h
  all_goals simp_all

/-- `Close` issues no download command. -/
lemma closeCamera_no_download (co : CloseOracle) (n : String) (b : Bool) :
    Cmd.download n b ∉ (CloseCamera co).1 := by
  intro h
  unfold CloseCamera at h
  repeat' split at h
  all_goals simp_all

/-- Every download command of a whole program run carries
`leaveOnCamera = false`. -/
lemma mainRun_leave_false (cfg : Config) (io : InitOracle) (os : Int → DeviceOracle)
    (co : CloseOracle) (fuel : Nat) :
    ∀ (n : String) (b : Bool),
      Cmd.download n b ∈ (mainRun cfg io os co fuel).trace → b = false := by
  intro n b h
  unfold mainRun at h
  by_cases h1 : cfg.Kind ≠ "lights" ∧ cfg.Kind ≠ "darks"
  · rw [if_pos h1] at h; simp at h
  · rw [if_neg h1] at h
    by_cases h2 : goIntMul cfg.Frames cfg.Duration > 28800
    · rw [if_pos h2] at h; simp at h
    · rw [if_neg h2] at h
      rcases hin : InitCam cfg io with ⟨trI, rI⟩
      rw [hin] at h
      have hInit : Cmd.download n b ∈ trI → False := fun hm =>
        initCam_no_download cfg io n b (by rw [hin]; exact hm)
      cases rI with
      | error e => simp only [] at h; exact absurd h hInit
      | ok cam =>
        simp only [] at h
        unfold Camera.CaptureLoop at h
        rcases hlp : CaptureLoopAux os cam.Frames fuel 0 cam with ⟨calls, trL, c', r⟩
        rw [hlp] at h
        have hLoop : Cmd.download n b ∈ trL → b = false := fun hm =>
          captureLoopAux_leave_false os cam.Frames fuel 0 cam n b (by rw [hlp]; exact hm)
        cases r with
        | none =>
          simp only [] at h
          simp only [List.mem_append] at h
          rcases h with h | h
          · exact absurd h hInit
          · exact hLoop h
        | some r2 =>
          cases r2 with
          | error e =>
            simp only [] at h
            simp only [List.mem_append] at h
            rcases h with h | h
            · exact absurd h hInit
            · exact hLoop h
          | ok u =>
            simp only [] at h
            rcases hcl : CloseCamera co with ⟨trC, rC⟩
            rw [hcl] at h
            have hClose : Cmd.download n b ∈ trC → False := fun hm =>
              closeCamera_no_download co n b (by rw [hcl]; exact hm)
            cases rC with
            | error e =>
              simp only [] at h
              simp only [List.mem_append] at h
              rcases h with (h | h) | h
              · exact absurd h hInit
              · exact hLoop h
              · exact absurd h hClose
            | ok u2 =>
              simp only [] at h
              simp only [List.mem_append] at h
              rcases h with (h | h) | h
              · exact absurd h hInit
              · exact hLoop h
              · exact absurd h hClose

/-- C6 fails as stated: the program does delete files from the device.
The concrete successful cycle below issues `download "IMG_0002.CR2" false`
(remove from camera, per the `-keep` flag's documented default), and
afterwards the device store `[fA]` no longer holds the listed file `fB`. -/
theorem C6_counterexample :
    (c0.CaptureBulb 1 okOracle).2.2 =
      Except.ok ({ listing := [fA, fB], downloads := [fB], deviceFiles := [fA] } : CycleData) ∧
    Cmd.download fB.name false ∈ (c0.CaptureBulb 1 okOracle).1 ∧
    fB ∈ ([fA, fB] : CameraFiles) ∧
    fB.name ∉ ([fA] : CameraFiles).map CameraFilePath.name := by
  refine ⟨rfl, ?_, ?_, ?_⟩ <;> decide

/-- C6 amended: the program's observable behaviour (messages, device
commands, downloads, frame calls, exit status) is independent of the
`Keep` flag, which is parsed but never consulted; however every download
command is issued with `leaveOnCamera = false`, i.e. with removal from the
device, regardless of `Keep`. -/
theorem C6_keep_independent (cfg : Config) (io : InitOracle) (os : Int → DeviceOracle)
    (co : CloseOracle) (fuel : Nat) (k₁ k₂ : Bool) :
    mainRun { cfg with Keep := k₁ } io os co fuel
      = mainRun { cfg with Keep := k₂ } io os co fuel ∧
    ∀ (n : String) (b : Bool),
      Cmd.download n b ∈ (mainRun { cfg with Keep := k₁ } io os co fuel).trace →
        b = false := by
  constructor
  · rw [mainRun_keep_update cfg io os co fuel k₁, mainRun_keep_update cfg io os co fuel k₂]
  · intro n b h
    exact mainRun_leave_false { cfg with Keep := k₁ } io os co fuel n b h

/-! ## Theorems about the abort handler, the capture loop and `main` -/

/-- C8: on receipt of an interrupt the abort handler issues exactly one
shutter-release command attempt and terminates the process with the
non-zero status 1, whatever the outcome of that command. -/
theorem C8_abort_single_release (releaseRes : Except String Unit) :
    (abortHandler releaseRes).1 = [Cmd.setConfig EosRemoteRelease "Release Full"] ∧
    (abortHandler releaseRes).2 = 1 ∧ (abortHandler releaseRes).2 ≠ 0 := by
  cases releaseRes with
  | ok u => exact ⟨rfl, rfl, one_ne_zero⟩
  | error e => exact ⟨rfl, rfl, one_ne_zero⟩

/-- Every frame index the loop hands to `CaptureBulb` from start index
`frame ≥ 0` lies in `(frame, frames]`, for any fuel (i.e. at any point of
any partial run). -/
lemma captureLoopAux_calls_bound (os : Int → DeviceOracle) (frames : Int)
    (hf : frames ≠ 0) :
    ∀ (fuel : Nat) (frame : Int) (c : Camera), 0 ≤ frame →
      ∀ i ∈ (CaptureLoopAux os frames fuel frame c).1, frame + 1 ≤ i ∧ i ≤ frames := by
  intro fuel
  induction fuel with
  | zero =>
    intro frame c hfr i hi
    unfold CaptureLoopAux at hi
    by_cases hcond : frames = 0 ∨ frame < frames
    · rw [if_pos hcond] at hi; simp at hi
    · rw [if_neg hcond] at hi; simp at hi
  | succ fuel ih =>
    intro frame c hfr i hi
    unfold CaptureLoopAux at hi
    by_cases hcond : frames = 0 ∨ frame < frames
    · rw [if_pos hcond] at hi
      simp only [] at hi
      have hlt : frame < frames := hcond.resolve_left hf
      rcases hcb : c.CaptureBulb (frame + 1) (os (frame + 1)) with ⟨tr, c', r⟩
      rw [hcb] at hi
      cases r with
      | error e =>
        simp only [List.mem_singleton] at hi
        omega
      | ok d =>
        simp only [] at hi
        rcases hrec : CaptureLoopAux os frames fuel (frame + 1) c' with ⟨calls, trs, c'', rr⟩
        rw [hrec] at hi
        simp only [List.mem_cons] at hi
        rcases hi with hi | hi
        · omega
        · have := ih (frame + 1) c' (by omega) i (by rw [hrec]; exact hi)
          omega
    · rw [if_neg hcond] at hi; simp at hi

/-- C10: in every (complete or partial) run of the capture loop with a
non-zero frame target, every frame index handed to the exposure cycle
lies between 1 and the target, inclusive. -/
theorem C10_frame_index_bounded (c : Camera) (os : Int → DeviceOracle) (fuel : Nat)
    (h : c.Frames ≠ 0) :
    ∀ i ∈ (c.CaptureLoop os fuel).1, 1 ≤ i ∧ i ≤ c.Frames := by
  intro i hi
  unfold Camera.CaptureLoop at hi
  have := captureLoopAux_calls_bound os c.Frames h fuel 0 c (le_refl 0) i hi
  omega

/-- Witness for C10 at a 2-frame session run with surplus fuel. -/
theorem C10_frame_index_bounded_witness :
    ({ c0 with Frames := 2 } : Camera).Frames ≠ 0 ∧
    ∀ i ∈ (({ c0 with Frames := 2 } : Camera).CaptureLoop os0 5).1,
      1 ≤ i ∧ i ≤ ({ c0 with Frames := 2 } : Camera).Frames :=
  ⟨by decide, C10_frame_index_bounded { c0 with Frames := 2 } os0 5 (by decide)⟩

/-- When every create and download succeeds, the download loop succeeds
and downloads its whole input list. -/
lemma downloadAll_all_ok (target kind : String) (o : DeviceOracle)
    (hc : ∀ p, o.createRes p = .ok ()) (hd : ∀ f, o.downloadRes f = .ok ()) :
    ∀ l : CameraFiles, ∃ tr, downloadAll target kind o l = (tr, .ok l) := by
  intro l
  induction l with
  | nil => exact ⟨[], rfl⟩
  | cons f rest ih =>
    rcases ih with ⟨tr, htr⟩
    refine ⟨Cmd.createFile (target ++ "/" ++ kind ++ "/" ++ f.name)
      :: Cmd.download f.name false :: tr, ?_⟩
    unfold downloadAll
    simp only []
    rw [hc, hd, htr]
    rfl

/-- When every device call succeeds, a capture cycle succeeds, updates
only the battery, and downloads `FindNew Files listing`. -/
lemma captureBulb_all_ok (c : Camera) (frame : Int) (o : DeviceOracle) (h : OracleOK o) :
    ∃ tr b l, c.CaptureBulb frame o =
      (tr, { c with Battery := b },
       Except.ok ({ listing := l, downloads := FindNew c.Files l,
                    deviceFiles := (FindNew c.Files l).foldl
                      (fun d f => removeFromDevice d f false) l } : CycleData)) := by
  obtain ⟨⟨b, hb⟩, ha, hr, hres, ⟨l, hl⟩, hcr, hdl⟩ := h
  obtain ⟨trD, htrD⟩ := downloadAll_all_ok c.Target c.Kind o hcr hdl (FindNew c.Files l)
  refine ⟨[Cmd.getSetting BatteryLevel, Cmd.setConfig EosRemoteRelease "Immediate",
    Cmd.setConfig EosRemoteRelease "Release Full", Cmd.reset, Cmd.listFiles] ++ trD,
    b, l, ?_⟩
  unfold Camera.CaptureBulb
  rw [hb, ha, hr, hres, hl]
  simp only []
  rw [htrD]
  rfl

/-- When every cycle's device calls succeed and the fuel equals the
remaining frame count, the loop calls the cycle once per remaining frame,
with consecutive indices, and finishes successfully. -/
lemma captureLoopAux_all_ok (os : Int → DeviceOracle) (frames : Int)
    (hos : ∀ i, OracleOK (os i)) (hpos : 0 < frames) :
    ∀ (fuel : Nat) (frame : Int) (c : Camera), frames = frame + fuel →
      (CaptureLoopAux os frames fuel frame c).1
          = (List.range fuel).map (fun (k : Nat) => frame + 1 + (k : Int)) ∧
      (CaptureLoopAux os frames fuel frame c).2.2.2 = some (Except.ok ()) := by
  intro fuel
  induction fuel with
  | zero =>
    intro frame c hfr
    unfold CaptureLoopAux
    have hcond : ¬(frames = 0 ∨ frame < frames) := by omega
    rw [if_neg hcond]
    exact ⟨rfl, rfl⟩
  | succ fuel ih =>
    intro frame c hfr
    unfold CaptureLoopAux
    have hcond : frames = 0 ∨ frame < frames := by omega
    rw [if_pos hcond]
    simp only []
    obtain ⟨tr, b, l, hcb⟩ := captureBulb_all_ok c (frame + 1) (os (frame + 1)) (hos (frame + 1))
    rw [hcb]
    simp only []
    obtain ⟨hcalls, hout⟩ := ih (frame + 1) { c with Battery := b } (by omega)
    rcases hrec : CaptureLoopAux os frames fuel (frame + 1) { c with Battery := b }
      with ⟨calls, trs, c'', rr⟩
    rw [hrec] at hcalls hout
    simp only [] at hcalls hout
    simp only [hrec]
    refine ⟨?_, by simpa using hout⟩
    simp only [List.range_succ_eq_map, List.map_cons, List.map_map]
    refine List.cons_eq_cons.mpr ⟨by simp, ?_⟩
    rw [hcalls]
    congr 1
    funext k
    simp only [Function.comp_apply, Nat.succ_eq_add_one]
    push_cast
    omega

/-- A successful `Init` copies the configured frame target into the
session unchanged. -/
lemma initCam_ok_frames (cfg : Config) (io : InitOracle) (tr : List Cmd) (cam : Camera)
    (h : InitCam cfg io = (tr, Except.ok cam)) : cam.Frames = cfg.Frames := by
  unfold InitCam at h
  repeat' split at h
  all_goals simp_all
  all_goals (rcases h with ⟨h1, h2⟩; rw [← h2]; simp [Camera.fromConfig])

/-- C7: with a positive frame target, a valid configuration and every
device call succeeding (init, each cycle, close), the capture loop hands
the cycle exactly the indices 1, 2, …, N in increasing order and the
process exits with status 0. -/
theorem C7_capture_loop_runs_all_frames (cfg : Config) (io : InitOracle)
    (os : Int → DeviceOracle) (co : CloseOracle) (trI : List Cmd) (cam : Camera)
    (hkind : cfg.Kind = "lights" ∨ cfg.Kind = "darks")
    (hdur : ¬ goIntMul cfg.Frames cfg.Duration > 28800)
    (hpos : 0 < cfg.Frames)
    (hinit : InitCam cfg io = (trI, Except.ok cam))
    (hos : ∀ i, OracleOK (os i))
    (hexit : co.exitRes = Except.ok ()) (hfree : co.freeRes = Except.ok ()) :
    (mainRun cfg io os co cfg.Frames.toNat).calls
        = (List.range cfg.Frames.toNat).map (fun (k : Nat) => (k : Int) + 1) ∧
    (mainRun cfg io os co cfg.Frames.toNat).calls.length = cfg.Frames.toNat ∧
    (mainRun cfg io os co cfg.Frames.toNat).exit = some 0 := by
  have hframes : cam.Frames = cfg.Frames := initCam_ok_frames cfg io trI cam hinit
  have h1 : ¬(cfg.Kind ≠ "lights" ∧ cfg.Kind ≠ "darks") := by
    rcases hkind with h | h <;> simp [h]
  obtain ⟨hcalls, hout⟩ := captureLoopAux_all_ok os cam.Frames hos (by omega)
    cfg.Frames.toNat 0 cam (by omega)
  unfold mainRun
  rw [if_neg h1, if_neg hdur, hinit]
  simp only []
  unfold Camera.CaptureLoop
  rcases hlp : CaptureLoopAux os cam.Frames cfg.Frames.toNat 0 cam with ⟨calls, trL, c', r⟩
  rw [hlp] at hcalls hout
  simp only [] at hcalls hout
  subst hout
  simp only []
  unfold CloseCamera
  rw [hexit, hfree]
  simp only []
  refine ⟨?_, ?_, ?_⟩
  · rw [hcalls]
    congr 1
    funext k
    omega
  · rw [hcalls]
    simp
  · trivial

/-- Witness for C7: a 2-frame run against an all-succeeding device. -/
theorem C7_capture_loop_runs_all_frames_witness :
    (mainRun cfg2 okInit os0 okClose (Int.toNat cfg2.Frames)).calls
        = (List.range (Int.toNat cfg2.Frames)).map (fun (k : Nat) => (k : Int) + 1) ∧
    (mainRun cfg2 okInit os0 okClose (Int.toNat cfg2.Frames)).calls.length
        = Int.toNat cfg2.Frames ∧
    (mainRun cfg2 okInit os0 okClose (Int.toNat cfg2.Frames)).exit = some 0 :=
  C7_capture_loop_runs_all_frames cfg2 okInit os0 okClose
    [Cmd.connect "", Cmd.getSetting "cameramodel", Cmd.getSetting "lensname",
     Cmd.listFiles, Cmd.setConfig "focusmode" "Manual",
     Cmd.setConfig "shutterspeed" "bulb", Cmd.setConfig "iso" "800",
     Cmd.setConfig "whitebalance" "Daylight", Cmd.setConfig "imageformat" "RAW",
     Cmd.setConfig "aperture" "2.8", Cmd.setConfig "capturetarget" "Memory card",
     Cmd.getSetting "batterylevel"]
    { Model := "Canon EOS R", Lens := "RF35mm", Battery := "75%", ISO := 800,
      Aperture := "2.8", Shutter := "bulb", Duration := 60, Frames := 2, Current := 0,
      Target := "/tmp/target", Kind := "lights", Keep := false, Files := [fA] }
    (Or.inl rfl) (by decide) (by decide) rfl
    (fun i => ⟨⟨"75%", rfl⟩, rfl, rfl, rfl, ⟨[fA, fB], rfl⟩, fun p => rfl, fun f => rfl⟩)
    rfl rfl

/-- A configuration that passes both sanity checks produces no validation
message, whatever the device does. -/
lemma mainRun_printed_validation (cfg : Config) (io : InitOracle) (os : Int → DeviceOracle)
    (co : CloseOracle) (fuel : Nat)
    (h1 : ¬(cfg.Kind ≠ "lights" ∧ cfg.Kind ≠ "darks"))
    (h2 : ¬ goIntMul cfg.Frames cfg.Duration > 28800) :
    (mainRun cfg io os co fuel).printed = [] := by
  unfold mainRun
  rw [if_neg h1, if_neg h2]
  rcases InitCam cfg io with ⟨trI, rI⟩
  cases rI with
  | error e => rfl
  | ok cam =>
    simp only []
    rcases cam.CaptureLoop os fuel with ⟨calls, trL, c', r⟩
    cases r with
    | none => rfl
    | some r2 =>
      cases r2 with
      | error e => rfl
      | ok u =>
        simp only []
        rcases CloseCamera co with ⟨trC, rC⟩
        cases rC with
        | error e => rfl
        | ok u2 => rfl

/-- C3 fails as stated: the rejected configuration `kind = "flats"` is
turned away before any device command, with the documented message, but
`main` ends by a plain `return`, so the process exit status is 0, not
non-zero. -/
theorem C3_counterexample :
    (mainRun cfgFlats okInit os0 okClose 1).printed
        = ["Bad 'kind' option: flats (must be either 'lights' or 'darks'"] ∧
    (mainRun cfgFlats okInit os0 okClose 1).trace = [] ∧
    (mainRun cfgFlats okInit os0 okClose 1).exit = some 0 :=
  ⟨rfl, rfl, rfl⟩

/-- C3 amended: an invalid frame kind, or a total session time whose
64-bit `int` product `frames*duration` (Go arithmetic, which wraps)
exceeds 28800, terminates the program before any device command, with a
descriptive message, and exit status 0 (not non-zero); the boundary
configuration frames = 8, duration = 3600 passes validation (no sanity
message); and because the product wraps, the configuration with
frames = duration = 2^32 (mathematically 2^64 seconds) also passes
validation, just as it does in Go. -/
theorem C3_validation_exits_zero :
    (∀ (cfg : Config) (io : InitOracle) (os : Int → DeviceOracle) (co : CloseOracle)
        (fuel : Nat),
        (¬(cfg.Kind = "lights" ∨ cfg.Kind = "darks") ∨ goIntMul cfg.Frames cfg.Duration > 28800) →
        (mainRun cfg io os co fuel).trace = [] ∧
        (mainRun cfg io os co fuel).calls = [] ∧
        (mainRun cfg io os co fuel).printed ≠ [] ∧
        (mainRun cfg io os co fuel).exit = some 0) ∧
    (∀ (io : InitOracle) (os : Int → DeviceOracle) (co : CloseOracle) (fuel : Nat),
        (mainRun cfg8h io os co fuel).printed = []) ∧
    (∀ (io : InitOracle) (os : Int → DeviceOracle) (co : CloseOracle) (fuel : Nat),
        (mainRun cfgWrap io os co fuel).printed = []) := by
  refine ⟨?_, ?_, ?_⟩
  · intro cfg io os co fuel hbad
    unfold mainRun
    by_cases h1 : cfg.Kind ≠ "lights" ∧ cfg.Kind ≠ "darks"
    · rw [if_pos h1]
      exact ⟨rfl, rfl, by simp, rfl⟩
    · rw [if_neg h1]
      have h2 : goIntMul cfg.Frames cfg.Duration > 28800 := by
        rcases hbad with hbad | hbad
        · exact absurd (by tauto) hbad
        · exact hbad
      rw [if_pos h2]
      exact ⟨rfl, rfl, by simp, rfl⟩
  · intro io os co fuel
    exact mainRun_printed_validation cfg8h io os co fuel (by decide) (by decide)
  · intro io os co fuel
    exact mainRun_printed_validation cfgWrap io os co fuel (by decide) (by decide)

/-- Witness for the amended C3 at the rejected configuration
`kind = "flats"`. -/
theorem C3_validation_exits_zero_witness :
    (mainRun cfgFlats okInit os0 okClose 1).trace = [] ∧
    (mainRun cfgFlats okInit os0 okClose 1).calls = [] ∧
    (mainRun cfgFlats okInit os0 okClose 1).printed ≠ [] ∧
    (mainRun cfgFlats okInit os0 okClose 1).exit = some 0 :=
  C3_validation_exits_zero.1 cfgFlats okInit os0 okClose 1 (Or.inl (by decide))

end Astro
